import Mathlib

/-!
Verification of the CouponHub promotional-coupon client.

The repository is a browser client over a remote database with two
collections, `coupons` and `claims`, plus two client-side cookies.  The
logic verified here is a shallow embedding of:

* `canUserClaim` / `updateClaimStatus` (HomePage): the cookie-based rate
  limiter and its human-readable wait message.  Times are integer
  epoch-milliseconds, exactly as stored in the `last_claim_time` cookie.
* `claimCoupon` (HomePage): the claim workflow
  (rate-limit check, fetch one available coupon, conditional update,
  claim-record insert, compensating revert on insert failure).  Remote
  calls can fail; which ones fail is a parameter (`RemoteBehavior`),
  so one run of the embedded function corresponds to one execution
  trace of the original.
* `addCoupon` / `toggleCouponStatus` (AdminDashboardPage): coupon
  creation with a pseudo-random code and a day-offset expiry, and the
  enable/disable toggle.

JavaScript strings are modelled as `List Char` where character-level
reasoning is needed (the random code), `String` elsewhere.
-/

namespace CouponHub

/-- The `status` column of the `coupons` collection. -/
inductive Status where
  | available
  | claimed
  | disabled
deriving DecidableEq

/-- Calendar instant split into a day number and milliseconds within the
day.  `Date.setDate(getDate() + n)` is day arithmetic that keeps the
time of day, which this representation makes exact. -/
structure DateTime where
  days : Nat
  msOfDay : Nat
deriving DecidableEq

/-- A row of the `coupons` collection (interface `Coupon` in the admin
dashboard).  `claimed_at` is epoch-milliseconds, the clock the claim
workflow writes; `expires_at` / `created_at` are calendar instants. -/
structure Coupon where
  id : Nat
  code : String
  status : Status
  claimed_by : Option String
  claimed_at : Option Int
  expires_at : DateTime
  created_at : DateTime
deriving DecidableEq

/-- A row of the `claims` collection, as inserted by the claim workflow
(`id` and `created_at` are filled by the database and never read back
by the inserting code, so they are omitted). -/
structure ClaimRec where
  coupon_id : Nat
  ip_address : String
  session_id : String
deriving DecidableEq

/-- The remote database state: both collections. -/
structure DB where
  coupons : List Coupon
  claims : List ClaimRec
deriving DecidableEq

/-- Everything the claim workflow can observe and mutate: the remote
database plus the `last_claim_time` cookie (epoch ms, absent until the
first successful claim). -/
structure SysState where
  db : DB
  lastClaimCookie : Option Int
deriving DecidableEq

/-- One hour in milliseconds, the claim cooldown. -/
def hourMs : Int := 3600000

/-- Function `canUserClaim`: no cookie means eligible; otherwise eligible iff
`(now - lastClaim) / (1000*60*60) >= 1`, i.e. at least one hour has
elapsed since the recorded claim. -/
def canUserClaim (lastClaimTime : Option Int) (now : Int) : Bool :=
  match lastClaimTime with
  | none => true
  | some t => hourMs ≤ now - t

/-- Ceiling division as performed by `Math.ceil(a / b)` on exact integer
inputs, for a positive divisor `b`. -/
def jsCeilDiv (a b : Int) : Int :=
  -((-a) / b)

/-- From `updateClaimStatus`: minutes left until the one-hour boundary,
`Math.ceil((lastClaim + 60*60*1000 - now) / (1000*60))`. -/
def minutesLeft (lastClaimTime now : Int) : Int :=
  jsCeilDiv (lastClaimTime + hourMs - now) 60000

/-- From `updateClaimStatus`: the displayed wait time — `'1 hour'` when more
than 60 minutes remain, else `` `${minutesLeft} minute${minutesLeft !== 1 ? 's' : ''}` ``. -/
def waitMessage (lastClaimTime now : Int) : String :=
  let m := minutesLeft lastClaimTime now
  if 60 < m then "1 hour"
  else toString m ++ " minute" ++ (if m = 1 then "" else "s")

/-- Outcome of one run of `claimCoupon`, one constructor per toast the
handler can show: the rate-limit toast, the
`'No coupons available at the moment...'` toast, the
`'Failed to claim coupon...'` toast (shown on update error and on
claim-insert error alike), and the success path exposing the claimed
coupon's code via `setClaimedCoupon`. -/
inductive ClaimResult where
  | rateLimited
  | noCoupons
  | claimFailed
  | success (code : String)
deriving DecidableEq

/-- Which of the remote calls of one `claimCoupon` run report an error.
Fixing these four booleans picks one execution trace of the original
async code. -/
structure RemoteBehavior where
  fetchFails : Bool
  updateFails : Bool
  insertFails : Bool
  revertFails : Bool
deriving DecidableEq

/-- The fetch step: `.select('*').eq('status', 'available').limit(1).single()`.
The database may return any available row; the embedding picks the
first, which is one admissible choice of that arbitrary selection. -/
def findAvailable (coupons : List Coupon) : Option Coupon :=
  coupons.find? (fun c => c.status = Status.available)

/-- The conditional update step: set `status='claimed'`,
`claimed_by=sessionId`, `claimed_at=now` on rows matching
`.eq('id', coupon.id).eq('status', 'available')`. -/
def markClaimed (coupons : List Coupon) (couponId : Nat)
    (sessionId : String) (now : Int) : List Coupon :=
  coupons.map fun c =>
    if c.id = couponId ∧ c.status = Status.available then
      { c with status := Status.claimed,
               claimed_by := some sessionId,
               claimed_at := some now }
    else c

/-- The compensating update issued when the claim insert fails: set
`status='available'`, `claimed_by=null`, `claimed_at=null` on rows
matching `.eq('id', coupon.id)` (no status guard). -/
def revertCoupon (coupons : List Coupon) (couponId : Nat) : List Coupon :=
  coupons.map fun c =>
    if c.id = couponId then
      { c with status := Status.available,
               claimed_by := none,
               claimed_at := none }
    else c

/-- Function `claimCoupon` (HomePage): rate-limit check, fetch one available
coupon, conditionally mark it claimed, insert a claim record, and on
insert failure revert the coupon; on success persist the new
`last_claim_time` cookie and expose the coupon code.  A remote call
that errors leaves the remote state unchanged, except the claim-insert
error, after which the revert is attempted (and itself may fail). -/
def claimCoupon (st : SysState) (sessionId : String) (clientIp : Option String)
    (now : Int) (beh : RemoteBehavior) : SysState × ClaimResult :=
  if canUserClaim st.lastClaimCookie now = false then
    (st, ClaimResult.rateLimited)
  else if beh.fetchFails then
    (st, ClaimResult.noCoupons)
  else
    match findAvailable st.db.coupons with
    | none => (st, ClaimResult.noCoupons)
    | some coupon =>
      if beh.updateFails then
        (st, ClaimResult.claimFailed)
      else
        let coupons1 := markClaimed st.db.coupons coupon.id sessionId now
        if beh.insertFails then
          let coupons2 :=
            if beh.revertFails then coupons1
            else revertCoupon coupons1 coupon.id
          ({ st with db := { st.db with coupons := coupons2 } },
           ClaimResult.claimFailed)
        else
          let newClaim : ClaimRec :=
            { coupon_id := coupon.id,
              ip_address := clientIp.getD "0.0.0.0",
              session_id := sessionId }
          ({ db := { coupons := coupons1,
                     claims := st.db.claims ++ [newClaim] },
             lastClaimCookie := some now },
           ClaimResult.success coupon.code)

/-- One base-36 digit as `Number.prototype.toString(36)` prints it:
`0`–`9` then `a`–`z`. -/
def base36Char (d : Fin 36) : Char :=
  if d.val < 10 then Char.ofNat (48 + d.val)
  else Char.ofNat (97 + (d.val - 10))

/-- JavaScript `String.prototype.substring(a, b)`: the characters at positions
`[a, b)`.  JavaScript strings are modelled as character lists. -/
def jsSubstring (s : List Char) (a b : Nat) : List Char :=
  (s.drop a).take (b - a)

/-- The code generator of `addCoupon`:
`Math.random().toString(36).substring(2, 10).toUpperCase()`.
`Math.random()` returns a number in `[0, 1)`, printed in base 36 as
`"0"` when it is zero and `"0."` followed by its (finitely many,
trailing-zero-free) fraction digits otherwise; the digit list is the
random outcome and is the parameter here. -/
def randomCodeChars (digits : List (Fin 36)) : List Char :=
  (jsSubstring
    (if digits.isEmpty then ['0'] else '0' :: '.' :: digits.map base36Char)
    2 10).map Char.toUpper

/-- The expiry computation `expires_at.setDate(expires_at.getDate() + expiryDays)`: calendar-day
arithmetic that preserves the time of day. -/
def addDays (d : DateTime) (n : Nat) : DateTime :=
  { days := d.days + n, msOfDay := d.msOfDay }

/-- The initial value of the admin dashboard's expiry-days input,
`useState(7)`. -/
def defaultExpiryDays : Nat := 7

/-- Function `addCoupon` (AdminDashboardPage): generate a random code, compute
`expires_at` as now plus `expiryDays` days, and insert the row.  The
client supplies only `code` and `expires_at`.

Modelled from the spec: the `coupons` table schema (not in the
repository) fills the remaining columns by default — `status`
`'available'`, `claimed_by`/`claimed_at` null, `created_at` the insert
time, and a fresh `id`. -/
def addCoupon (db : DB) (digits : List (Fin 36)) (expiryDays : Nat)
    (now : DateTime) (newId : Nat) : DB :=
  { db with
    coupons := db.coupons ++
      [{ id := newId,
         code := String.mk (randomCodeChars digits),
         status := Status.available,
         claimed_by := none,
         claimed_at := none,
         expires_at := addDays now expiryDays,
         created_at := now }] }

/-- The status flip of `toggleCouponStatus`:
`coupon.status === 'available' ? 'disabled' : 'available'`. -/
def toggleStatus (s : Status) : Status :=
  if s = Status.available then Status.disabled else Status.available

/-- Function `toggleCouponStatus` (AdminDashboardPage): write the flipped status
(computed from the coupon object passed in) to the rows matching
`.eq('id', coupon.id)`; no other column is touched. -/
def toggleCouponStatus (db : DB) (coupon : Coupon) : DB :=
  { db with
    coupons := db.coupons.map fun c =>
      if c.id = coupon.id then { c with status := toggleStatus coupon.status }
      else c }

/-- The coupon invariant of the data model: a claimed coupon has
non-null `claimed_by` and `claimed_at`; an available coupon has both
null. -/
def couponInv (c : Coupon) : Prop :=
  (c.status = Status.claimed → c.claimed_by ≠ none ∧ c.claimed_at ≠ none)
  ∧ (c.status = Status.available → c.claimed_by = none ∧ c.claimed_at = none)

instance (c : Coupon) : Decidable (couponInv c) := by
  unfold couponInv
  infer_instance

/-- The coupon invariant over a whole database. -/
def dbInv (db : DB) : Prop :=
  ∀ c ∈ db.coupons, couponInv c

instance (db : DB) : Decidable (dbInv db) := by
  unfold dbInv
  infer_instance

/-- A one-coupon database used to instantiate the workflow theorems on
concrete inputs. -/
def couponA : Coupon :=
  { id := 1, code := "SAVE10", status := Status.available,
    claimed_by := none, claimed_at := none,
    expires_at := { days := 10, msOfDay := 0 },
    created_at := { days := 3, msOfDay := 0 } }

/-- A claimed coupon, for exercising the admin toggle. -/
def couponB : Coupon :=
  { id := 2, code := "SAVE20", status := Status.claimed,
    claimed_by := some "sess-1", claimed_at := some 1000,
    expires_at := { days := 10, msOfDay := 0 },
    created_at := { days := 3, msOfDay := 0 } }

/-- System state holding exactly `couponA`, no claims, no cookie. -/
def stA : SysState :=
  { db := { coupons := [couponA], claims := [] }, lastClaimCookie := none }

/-- System state with an empty coupon collection. -/
def stEmpty : SysState :=
  { db := { coupons := [], claims := [] }, lastClaimCookie := none }

/-- A run in which every remote call succeeds. -/
def behOk : RemoteBehavior :=
  { fetchFails := false, updateFails := false,
    insertFails := false, revertFails := false }

/-- A run in which only the claim-record insert fails. -/
def behInsertFail : RemoteBehavior :=
  { fetchFails := false, updateFails := false,
    insertFails := true, revertFails := false }

/-- Database holding only the available `couponA`. -/
def dbA : DB := { coupons := [couponA], claims := [] }

/-- Database holding only the claimed `couponB`. -/
def dbB : DB := { coupons := [couponB], claims := [] }

/-- Applied to a positive divisor, `jsCeilDiv` really is the ceiling: it is the least integer
`q` with `a ≤ 60000 * q`. -/
lemma jsCeilDiv_bounds (a : Int) :
    60000 * (jsCeilDiv a 60000 - 1) < a ∧ a ≤ 60000 * jsCeilDiv a 60000 := by
  simp only [jsCeilDiv]
  omega

lemma minutesLeft_bounds (t n : Int) :
    60000 * (minutesLeft t n - 1) < t + hourMs - n
      ∧ t + hourMs - n ≤ 60000 * minutesLeft t n :=
  jsCeilDiv_bounds _

lemma waitMessage_of_le (t n : Int) (h : minutesLeft t n ≤ 60) :
    waitMessage t n =
      toString (minutesLeft t n) ++ " minute"
        ++ (if minutesLeft t n = 1 then "" else "s") := by
  simp only [waitMessage]
  rw [if_neg (by omega)]

lemma minutesLeft_shift (t d : Int) : minutesLeft t (t + d) = minutesLeft 0 d := by
  simp only [minutesLeft, jsCeilDiv]
  have h : t + hourMs - (t + d) = 0 + hourMs - d := by ring
  rw [h]

/-- C2: the rate limiter is eligible iff at least one hour (3600000 ms)
has elapsed since the last claim — the boundary at exactly one hour is
eligible — and it is always eligible when no last-claim timestamp is
recorded. -/
theorem canUserClaim_iff :
    (∀ t n : Int, canUserClaim (some t) n = true ↔ hourMs ≤ n - t)
    ∧ (∀ n : Int, canUserClaim none n = true)
    ∧ (∀ t : Int, canUserClaim (some t) (t + hourMs) = true) := by
  refine ⟨fun t n => ?_, fun n => rfl, fun t => ?_⟩
  · simp [canUserClaim]
  · simp [canUserClaim]

/-- C8: when less than one hour has elapsed, the wait message reports the
remaining minutes to the one-hour boundary rounded up (the ceiling
bounds below), displayed as `"1 hour"` when they exceed 60 and as
`"<n> minute(s)"` otherwise; at `N = T + 45` minutes it reports
`"15 minutes"` and at `N = T + 1` minute it reports `"59 minutes"`. -/
theorem waitMessage_spec (t n : Int) (h : n - t < hourMs) :
    1 ≤ minutesLeft t n
    ∧ 60000 * (minutesLeft t n - 1) < t + hourMs - n
    ∧ t + hourMs - n ≤ 60000 * minutesLeft t n
    ∧ (60 < minutesLeft t n → waitMessage t n = "1 hour")
    ∧ (minutesLeft t n ≤ 60 →
        waitMessage t n =
          toString (minutesLeft t n) ++ " minute"
            ++ (if minutesLeft t n = 1 then "" else "s"))
    ∧ waitMessage t (t + 2700000) = "15 minutes"
    ∧ waitMessage t (t + 60000) = "59 minutes" := by
  obtain ⟨hlo, hhi⟩ := minutesLeft_bounds t n
  have h45 : minutesLeft t (t + 2700000) = 15 := by
    rw [minutesLeft_shift]
    simp only [minutesLeft, jsCeilDiv, hourMs]
    omega
  have h1m : minutesLeft t (t + 60000) = 59 := by
    rw [minutesLeft_shift]
    simp only [minutesLeft, jsCeilDiv, hourMs]
    omega
  refine ⟨by omega, hlo, hhi, fun hgt => ?_, waitMessage_of_le t n, ?_, ?_⟩
  · simp only [waitMessage]
    rw [if_pos hgt]
  · rw [waitMessage_of_le t (t + 2700000) (by omega), h45]
    rfl
  · rw [waitMessage_of_le t (t + 60000) (by omega), h1m]
    rfl

/-- C8 witness: at `T = 0`, `N = 0` the hypotheses hold and the two
concrete wait messages come out as claimed. -/
theorem waitMessage_spec_witness :
    waitMessage 0 (0 + 2700000) = "15 minutes"
      ∧ waitMessage 0 (0 + 60000) = "59 minutes" :=
  ⟨(waitMessage_spec 0 0 (by decide)).2.2.2.2.2.1,
   (waitMessage_spec 0 0 (by decide)).2.2.2.2.2.2⟩

/-- C10: when the rate limiter is ineligible, the rounded-up remaining
minutes are at least 1; at exactly 60 they display as `"60 minutes"`
(not `"1 hour"`), at exactly 1 as the singular `"1 minute"`, and at any
other value up to 60 as the plural `"<n> minutes"`; in particular a
check at the exact moment of the last claim reads `"60 minutes"`. -/
theorem waitMessage_boundary_spec (t n : Int)
    (h : canUserClaim (some t) n = false) :
    1 ≤ minutesLeft t n
    ∧ (minutesLeft t n = 60 → waitMessage t n = "60 minutes")
    ∧ (minutesLeft t n = 1 → waitMessage t n = "1 minute")
    ∧ (2 ≤ minutesLeft t n → minutesLeft t n ≤ 60 →
        waitMessage t n = toString (minutesLeft t n) ++ " minutes")
    ∧ waitMessage t t = "60 minutes" := by
  have hlt : n - t < hourMs := by
    simp only [canUserClaim, decide_eq_false_iff_not, not_le] at h
    omega
  obtain ⟨hlo, hhi⟩ := minutesLeft_bounds t n
  have hm0 : minutesLeft t t = 60 := by
    simp only [minutesLeft, jsCeilDiv, hourMs]
    omega
  refine ⟨by omega, fun h60 => ?_, fun h1 => ?_, fun h2 h60 => ?_, ?_⟩
  · rw [waitMessage_of_le t n (by omega), h60]
    rfl
  · rw [waitMessage_of_le t n (by omega), h1]
    rfl
  · rw [waitMessage_of_le t n h60]
    rw [if_neg (by omega), String.append_assoc]
    rfl
  · rw [waitMessage_of_le t t (by omega), hm0]
    rfl

/-- C10 witness: at `T = N = 0` the session is ineligible and the
message reads `"60 minutes"`. -/
theorem waitMessage_boundary_spec_witness :
    canUserClaim (some 0) 0 = false ∧ waitMessage 0 0 = "60 minutes" :=
  ⟨by decide, (waitMessage_boundary_spec 0 0 (by decide)).2.2.2.2⟩

lemma find?_of_filter_singleton {α : Type} (p : α → Bool) (a : α) :
    ∀ l : List α, l.filter p = [a] → l.find? p = some a := by
  intro l
  induction l with
  | nil => intro h; simp at h
  | cons x xs ih =>
    intro h
    cases hx : p x with
    | true =>
      simp only [List.filter_cons, hx, if_pos] at h
      obtain ⟨rfl, -⟩ : x = a ∧ xs.filter p = [] := by
        simpa using h
      simp [List.find?_cons, hx]
    | false =>
      simp only [List.filter_cons, hx] at h
      simp only [List.find?_cons, hx]
      exact ih (by simpa using h)

/-- C1: with exactly one available coupon, an eligible session, and all
remote calls succeeding, the claim workflow reports success with that
coupon's code, updates the last-claim cookie to the current time,
appends exactly one claim record referencing the coupon, stores the
coupon with status claimed and `claimed_by`/`claimed_at` populated, and
keeps every other coupon record. -/
theorem claim_success_spec (st : SysState) (sessionId : String)
    (clientIp : Option String) (now : Int) (beh : RemoteBehavior)
    (hfetch : beh.fetchFails = false) (hupd : beh.updateFails = false)
    (hins : beh.insertFails = false)
    (helig : canUserClaim st.lastClaimCookie now = true)
    (coupon : Coupon)
    (hone : st.db.coupons.filter (fun c => c.status = Status.available)
              = [coupon]) :
    (claimCoupon st sessionId clientIp now beh).2
        = ClaimResult.success coupon.code
    ∧ (claimCoupon st sessionId clientIp now beh).1.lastClaimCookie = some now
    ∧ (claimCoupon st sessionId clientIp now beh).1.db.claims
        = st.db.claims
            ++ [{ coupon_id := coupon.id,
                  ip_address := clientIp.getD "0.0.0.0",
                  session_id := sessionId }]
    ∧ { coupon with status := Status.claimed,
                    claimed_by := some sessionId,
                    claimed_at := some now }
        ∈ (claimCoupon st sessionId clientIp now beh).1.db.coupons
    ∧ ∀ c ∈ st.db.coupons, c ≠ coupon
        → c ∈ (claimCoupon st sessionId clientIp now beh).1.db.coupons := by
  have hmemA : coupon ∈ st.db.coupons.filter
      (fun c => c.status = Status.available) := by
    rw [hone]; exact List.mem_singleton_self _
  have hmem : coupon ∈ st.db.coupons ∧ coupon.status = Status.available := by
    have := List.mem_filter.mp hmemA
    simpa using this
  have huniq : ∀ c ∈ st.db.coupons, c.status = Status.available
      → c = coupon := by
    intro c hc hs
    have : c ∈ st.db.coupons.filter (fun c => c.status = Status.available) :=
      List.mem_filter.mpr ⟨hc, by simpa using hs⟩
    rw [hone] at this
    simpa using this
  have hfind : findAvailable st.db.coupons = some coupon :=
    find?_of_filter_singleton _ _ _ hone
  have hrun : claimCoupon st sessionId clientIp now beh =
      ({ db := { coupons := markClaimed st.db.coupons coupon.id sessionId now,
                 claims := st.db.claims
                   ++ [{ coupon_id := coupon.id,
                         ip_address := clientIp.getD "0.0.0.0",
                         session_id := sessionId }] },
         lastClaimCookie := some now },
       ClaimResult.success coupon.code) := by
    simp [claimCoupon, helig, hfetch, hupd, hins, hfind]
  refine ⟨by rw [hrun], by rw [hrun], by rw [hrun], ?_, ?_⟩
  · rw [hrun]
    exact List.mem_map.mpr ⟨coupon, hmem.1, by rw [if_pos ⟨rfl, hmem.2⟩]⟩
  · intro c hc hne
    rw [hrun]
    refine List.mem_map.mpr ⟨c, hc, ?_⟩
    rw [if_neg]
    rintro ⟨-, hs⟩
    exact hne (huniq c hc hs)

/-- C1 witness: claiming against the one-available-coupon state with
every remote call succeeding yields the coupon's code and the updated
cookie. -/
theorem claim_success_spec_witness :
    (claimCoupon stA "sess-9" none 7 behOk).2 = ClaimResult.success "SAVE10"
      ∧ (claimCoupon stA "sess-9" none 7 behOk).1.lastClaimCookie = some 7 :=
  ⟨(claim_success_spec stA "sess-9" none 7 behOk (by decide) (by decide)
      (by decide) (by decide) couponA (by decide)).1,
   (claim_success_spec stA "sess-9" none 7 behOk (by decide) (by decide)
      (by decide) (by decide) couponA (by decide)).2.1⟩

/-- C4: with zero available coupons (whether or not the fetch call also
errors), an eligible claim attempt returns the no-coupons failure and
leaves the whole system state — every coupon record, every claim
record, and the last-claim cookie — unchanged. -/
theorem claim_no_coupons_spec (st : SysState) (sessionId : String)
    (clientIp : Option String) (now : Int) (beh : RemoteBehavior)
    (helig : canUserClaim st.lastClaimCookie now = true)
    (hnone : ∀ c ∈ st.db.coupons, c.status ≠ Status.available) :
    claimCoupon st sessionId clientIp now beh = (st, ClaimResult.noCoupons) := by
  have hfind : findAvailable st.db.coupons = none := by
    simp only [findAvailable, List.find?_eq_none, decide_eq_true_eq]
    exact hnone
  cases hb : beh.fetchFails with
  | true => simp [claimCoupon, helig, hb]
  | false => simp [claimCoupon, helig, hb, hfind]

/-- C4 witness: claiming against the empty coupon collection fails with
no-coupons and returns the state unchanged. -/
theorem claim_no_coupons_spec_witness :
    claimCoupon stEmpty "sess-9" none 7 behOk = (stEmpty, ClaimResult.noCoupons) :=
  claim_no_coupons_spec stEmpty "sess-9" none 7 behOk (by decide) (by decide)

/-- C3: when the coupon update succeeded but the claim-record insert
fails, the workflow reports the failed-to-claim error whether or not
the compensating update succeeds; when the compensation succeeds, every
row with the coupon's id is back to status available with `claimed_by`
and `claimed_at` null; the claims collection and the cookie are
untouched. -/
theorem claim_insert_failure_spec (st : SysState) (sessionId : String)
    (clientIp : Option String) (now : Int) (beh : RemoteBehavior)
    (hfetch : beh.fetchFails = false) (hupd : beh.updateFails = false)
    (hins : beh.insertFails = true)
    (helig : canUserClaim st.lastClaimCookie now = true)
    (coupon : Coupon)
    (hfind : findAvailable st.db.coupons = some coupon) :
    (claimCoupon st sessionId clientIp now beh).2 = ClaimResult.claimFailed
    ∧ (beh.revertFails = false →
        ∀ c ∈ (claimCoupon st sessionId clientIp now beh).1.db.coupons,
          c.id = coupon.id →
            c.status = Status.available
              ∧ c.claimed_by = none ∧ c.claimed_at = none)
    ∧ (claimCoupon st sessionId clientIp now beh).1.db.claims = st.db.claims
    ∧ (claimCoupon st sessionId clientIp now beh).1.lastClaimCookie
        = st.lastClaimCookie := by
  have hrun : claimCoupon st sessionId clientIp now beh =
      ({ st with db := { st.db with coupons :=
          (if beh.revertFails then
            markClaimed st.db.coupons coupon.id sessionId now
          else
            revertCoupon (markClaimed st.db.coupons coupon.id sessionId now)
              coupon.id) } },
       ClaimResult.claimFailed) := by
    simp [claimCoupon, helig, hfetch, hupd, hins, hfind]
  refine ⟨by rw [hrun], ?_, by rw [hrun], by rw [hrun]⟩
  intro hrev c hc hid
  rw [hrun] at hc
  simp only [hrev, if_neg Bool.false_ne_true] at hc
  obtain ⟨x, -, rfl⟩ := List.mem_map.mp hc
  by_cases hx : x.id = coupon.id
  · rw [if_pos hx]
    exact ⟨rfl, rfl, rfl⟩
  · rw [if_neg hx] at hid ⊢
    exact absurd hid hx

/-- C3 witness: with the insert failing and the compensation
succeeding, the concrete run reports the claim failure. -/
theorem claim_insert_failure_spec_witness :
    (claimCoupon stA "sess-9" none 7 behInsertFail).2
      = ClaimResult.claimFailed :=
  (claim_insert_failure_spec stA "sess-9" none 7 behInsertFail (by decide)
    (by decide) (by decide) (by decide) couponA (by decide)).1

lemma base36Char_toUpper_alnum :
    ∀ d : Fin 36, (base36Char d).toUpper.isDigit = true
      ∨ ('A' ≤ (base36Char d).toUpper ∧ (base36Char d).toUpper ≤ 'Z') := by
  decide

lemma randomCodeChars_alnum (digits : List (Fin 36)) :
    ∀ ch ∈ randomCodeChars digits,
      ch.isDigit = true ∨ ('A' ≤ ch ∧ ch ≤ 'Z') := by
  intro ch hch
  cases digits with
  | nil => simp [randomCodeChars, jsSubstring] at hch
  | cons d ds =>
    simp only [randomCodeChars, jsSubstring, List.isEmpty_cons,
      List.drop_succ_cons, List.drop_zero, List.mem_map] at hch
    rw [if_neg (by simp)] at hch
    obtain ⟨x, hx, rfl⟩ := by
      simpa only [List.drop_succ_cons, List.drop_zero, List.mem_map] using hch
    obtain ⟨e, -, rfl⟩ := List.mem_map.mp (List.mem_of_mem_take hx)
    exact base36Char_toUpper_alnum e

lemma randomCodeChars_length (digits : List (Fin 36)) :
    (randomCodeChars digits).length ≤ 8 := by
  cases digits with
  | nil => simp [randomCodeChars, jsSubstring]
  | cons d ds =>
    simp only [randomCodeChars, jsSubstring, List.length_map]
    rw [if_neg (by simp)]
    simp only [List.drop_succ_cons, List.drop_zero, List.length_map,
      List.length_take]
    omega

/-- C9: whatever the random outcome, the generated code consists only of
decimal digits and uppercase Latin letters and has at most 8
characters; length exactly 8 is not guaranteed (the empty fraction
gives an empty code); and `addCoupon` inserts unconditionally — the row
count always grows by one, with no lookup of existing codes (the
statement quantifies over all databases, including ones already
holding a coupon with the same code). -/
theorem randomCode_spec :
    (∀ digits : List (Fin 36), (randomCodeChars digits).length ≤ 8)
    ∧ (∀ digits : List (Fin 36), ∀ ch ∈ randomCodeChars digits,
        ch.isDigit = true ∨ ('A' ≤ ch ∧ ch ≤ 'Z'))
    ∧ randomCodeChars [] = []
    ∧ (∀ (db : DB) (digits : List (Fin 36)) (expiryDays : Nat)
        (now : DateTime) (newId : Nat),
        (addCoupon db digits expiryDays now newId).coupons.length
          = db.coupons.length + 1) := by
  refine ⟨randomCodeChars_length, randomCodeChars_alnum, rfl, ?_⟩
  intro db digits expiryDays now newId
  simp [addCoupon]

/-- C9 witness: a one-digit random outcome gives the one-character code
`"A"`, within the length bound and alphanumeric. -/
theorem randomCode_spec_witness :
    (randomCodeChars [(10 : Fin 36)]).length ≤ 8
      ∧ (Char.isDigit 'A' = true ∨ ('A' ≤ 'A' ∧ 'A' ≤ 'Z')) :=
  ⟨randomCode_spec.1 [(10 : Fin 36)],
   randomCode_spec.2.1 [(10 : Fin 36)] 'A' (by decide)⟩

/-- C7: for any expiry-days value of at least 1, `addCoupon` appends one
row whose status is available, whose `created_at` is the creation
instant, and whose `expires_at` is `created_at` plus that many days
with the time of day preserved; its code comes from the alphanumeric
generator, and the configured default is 7 days. -/
theorem addCoupon_spec (db : DB) (digits : List (Fin 36)) (expiryDays : Nat)
    (now : DateTime) (newId : Nat) (hmin : 1 ≤ expiryDays) :
    (∃ nc : Coupon,
      (addCoupon db digits expiryDays now newId).coupons = db.coupons ++ [nc]
      ∧ nc.status = Status.available
      ∧ nc.created_at = now
      ∧ nc.expires_at.days = nc.created_at.days + expiryDays
      ∧ nc.expires_at.msOfDay = nc.created_at.msOfDay
      ∧ ∀ ch ∈ nc.code.data, ch.isDigit = true ∨ ('A' ≤ ch ∧ ch ≤ 'Z'))
    ∧ defaultExpiryDays = 7 :=
  ⟨⟨_, rfl, rfl, rfl, rfl, rfl, randomCodeChars_alnum digits⟩, rfl⟩

/-- C7 witness: creating a coupon in the one-coupon database with the
default 7-day expiry. -/
theorem addCoupon_spec_witness :
    (∃ nc : Coupon,
      (addCoupon dbA [] 7 { days := 100, msOfDay := 555 } 9).coupons
          = dbA.coupons ++ [nc]
      ∧ nc.status = Status.available
      ∧ nc.created_at = { days := 100, msOfDay := 555 }
      ∧ nc.expires_at.days = nc.created_at.days + 7
      ∧ nc.expires_at.msOfDay = nc.created_at.msOfDay
      ∧ ∀ ch ∈ nc.code.data, ch.isDigit = true ∨ ('A' ≤ ch ∧ ch ≤ 'Z'))
    ∧ defaultExpiryDays = 7 :=
  addCoupon_spec dbA [] 7 { days := 100, msOfDay := 555 } 9 (by decide)

/-- C5 counterexample: the claim fails on a claimed coupon.  Toggling
`couponB` (status claimed) once makes it available; toggling the
refreshed row again makes it disabled, not claimed, so two toggles do
not return it to its original status. -/
theorem toggle_twice_cex :
    couponB.status = Status.claimed
    ∧ (toggleCouponStatus (toggleCouponStatus dbB couponB)
          { couponB with status := Status.available }).coupons.map Coupon.status
        = [Status.disabled]
    ∧ Status.disabled ≠ Status.claimed := by
  decide

/-- C5 amended: toggling twice returns a coupon to its original status
when that status is available or disabled (for a claimed coupon the two
toggles end at disabled instead): at the status level the flip is an
involution away from claimed, and on the database the row with the
coupon's id is back to its original record after toggling it and then
toggling the refreshed row. -/
theorem toggle_twice_amended (db : DB) (c : Coupon)
    (huniq : ∀ x ∈ db.coupons, x.id = c.id → x = c)
    (hnc : c.status ≠ Status.claimed) :
    toggleStatus (toggleStatus c.status) = c.status
    ∧ ∀ c' ∈ (toggleCouponStatus (toggleCouponStatus db c)
          { c with status := toggleStatus c.status }).coupons,
        c'.id = c.id → c' = c := by
  have hinv : toggleStatus (toggleStatus c.status) = c.status := by
    cases hs : c.status with
    | available => simp [toggleStatus]
    | claimed => exact absurd hs hnc
    | disabled => simp [toggleStatus]
  refine ⟨hinv, ?_⟩
  intro c' hc' hid
  simp only [toggleCouponStatus, List.map_map, List.mem_map,
    Function.comp] at hc'
  obtain ⟨x, hx, rfl⟩ := hc'
  by_cases hxid : x.id = c.id
  · have hxc : x = c := huniq x hx hxid
    subst hxc
    rw [if_pos rfl, if_pos rfl, hinv]
  · rw [if_neg hxid, if_neg hxid] at hid ⊢
    exact absurd hid hxid

/-- C5 witness: two toggles restore the available `couponA`. -/
theorem toggle_twice_amended_witness :
    toggleStatus (toggleStatus couponA.status) = couponA.status :=
  (toggle_twice_amended dbA couponA (by decide) (by decide)).1

lemma couponInv_markClaimed {l : List Coupon} (hi : ∀ c ∈ l, couponInv c)
    (i : Nat) (s : String) (n : Int) :
    ∀ c ∈ markClaimed l i s n, couponInv c := by
  intro c hc
  obtain ⟨x, hx, rfl⟩ := List.mem_map.mp hc
  by_cases hcond : x.id = i ∧ x.status = Status.available
  · rw [if_pos hcond]
    simp [couponInv]
  · rw [if_neg hcond]
    exact hi x hx

lemma couponInv_revert {l : List Coupon} (hi : ∀ c ∈ l, couponInv c)
    (i : Nat) : ∀ c ∈ revertCoupon l i, couponInv c := by
  intro c hc
  obtain ⟨x, hx, rfl⟩ := List.mem_map.mp hc
  by_cases hcond : x.id = i
  · rw [if_pos hcond]
    simp [couponInv]
  · rw [if_neg hcond]
    exact hi x hx

/-- C6 counterexample: the claim fails on the admin toggle.  `dbB`
(one claimed coupon with non-null `claimed_by`/`claimed_at`) satisfies
the invariant, but toggling the claimed coupon makes its status
available while leaving both claim fields populated, breaking it. -/
theorem invariant_toggle_cex :
    dbInv dbB ∧ ¬ dbInv (toggleCouponStatus dbB couponB) := by
  decide

/-- C6 amended: the claim workflow (every execution trace, including
failed updates, failed inserts, and failed or successful compensating
reverts) and the admin create preserve the coupon invariant; the admin
toggle preserves it only under the extra condition that every row
sharing the toggled coupon's id has null `claimed_by` and `claimed_at`
— in particular toggling a claimed coupon violates the invariant, as
the counterexample shows. -/
theorem invariant_preservation_amended
    (st : SysState) (sessionId : String) (clientIp : Option String)
    (now : Int) (beh : RemoteBehavior)
    (db : DB) (digits : List (Fin 36)) (expiryDays : Nat)
    (dnow : DateTime) (newId : Nat) (c0 : Coupon)
    (hinv : dbInv st.db) (hinv2 : dbInv db)
    (hclean : ∀ c ∈ db.coupons, c.id = c0.id →
        c.claimed_by = none ∧ c.claimed_at = none) :
    dbInv (claimCoupon st sessionId clientIp now beh).1.db
    ∧ dbInv (addCoupon db digits expiryDays dnow newId)
    ∧ dbInv (toggleCouponStatus db c0) := by
  refine ⟨?_, ?_, ?_⟩
  · unfold dbInv at hinv ⊢
    simp only [claimCoupon]
    split
    · exact hinv
    · split
      · exact hinv
      · split
        · exact hinv
        · split
          · exact hinv
          · split
            · split
              · exact couponInv_markClaimed hinv _ _ _
              · exact couponInv_revert (couponInv_markClaimed hinv _ _ _) _
            · exact couponInv_markClaimed hinv _ _ _
  · intro c hc
    simp only [addCoupon, List.mem_append, List.mem_singleton] at hc
    cases hc with
    | inl h => exact hinv2 c h
    | inr h =>
      subst h
      simp [couponInv]
  · intro c hc
    obtain ⟨x, hx, rfl⟩ := List.mem_map.mp hc
    by_cases hxid : x.id = c0.id
    · rw [if_pos hxid]
      obtain ⟨hby, hat⟩ := hclean x hx hxid
      constructor
      · intro hcl
        exact absurd hcl (by cases h0 : c0.status <;> simp [toggleStatus, h0])
      · intro _
        exact ⟨hby, hat⟩
    · rw [if_neg hxid]
      exact hinv2 x hx

/-- C6 witness: the workflow on the available-coupon state, creation,
and the toggle of the clean `couponA` all keep the invariant. -/
theorem invariant_preservation_amended_witness :
    dbInv (claimCoupon stA "sess-9" none 7 behOk).1.db
    ∧ dbInv (toggleCouponStatus dbA couponA) :=
  ⟨(invariant_preservation_amended stA "sess-9" none 7 behOk dbA [] 7
      { days := 0, msOfDay := 0 } 9 couponA (by decide) (by decide)
      (by decide)).1,
   (invariant_preservation_amended stA "sess-9" none 7 behOk dbA [] 7
      { days := 0, msOfDay := 0 } 9 couponA (by decide) (by decide)
      (by decide)).2.2⟩

end CouponHub
